import Mathlib

/-!
# GroupChat — verification of the view-resolution state machine,
# the admin decision workflow and the message feed controller

Shallow embedding of the core client logic of the GroupChat repository:

* `determineView` — `src/App.tsx`, `determineView` (lines 43–127);
* `handleDecisionF` — `src/components/AccessRequestForm.tsx` (AdminDashboard
  part), `handleDecision` (lines 172–209);
* `fetchMessages` / `joinEvent` / `processEvents` / `handleSendMessage` —
  `src/components/CreateProfile.tsx` (ChatInterface part), lines 138–191.

Store-access model.  The client talks to the backing store through a client
library whose PostgREST and storage calls resolve to a `\x7b data, error \x7d`
result object; a query failure (store unreachable, malformed response,
`.single()` / `.maybeSingle()` cardinality violation) is reported in the
`error` field of that object — the awaited promise itself does not reject.
An exception is raised only where the repository code explicitly writes
`if (error) throw error` (it does so in `handleDecision` step 1, in the
profile-creation submit and in the upload helpers, but nowhere in
`determineView` or `handleSendMessage`).  The embedding therefore models
each query as an in-band outcome (`QOutcome`): destructuring `\x7b data \x7d`
of a failed query yields `none`, and only the explicit throw sites can
reach a `catch` block.

Machine state model.  React `useState` setters are modelled by record
updates applied in program order; the functional update
`setView(prev => ...)` reads the most recently written view value.
-/

namespace GroupChat

/-- `UserRole` from `src/types.ts`: `'admin' | 'member'`. -/
inductive UserRole : Type
  | admin
  | member
deriving DecidableEq, Repr

/-- `RequestStatus` from `src/types.ts`: `'pending' | 'approved' | 'rejected'`. -/
inductive RequestStatus : Type
  | pending
  | approved
  | rejected
deriving DecidableEq, Repr

/-- A row of the `roles` table (`src/types.ts` / schema): `id`, `user_id`, `role`. -/
structure RoleAssignment : Type where
  id : String
  user_id : String
  role : UserRole
deriving DecidableEq, Repr

/-- `AccessRequest` from `src/types.ts`; `created_at` is modelled as a `Nat`
timestamp. -/
structure AccessRequest : Type where
  id : String
  user_id : String
  name : String
  reason : String
  status : RequestStatus
  created_at : Nat
deriving DecidableEq, Repr

/-- `Profile` from `src/types.ts`.  `dp_url` is `Option String` because the
schema column is nullable and the ChatInterface placeholder stores `null`
there while the App placeholder stores `''`. -/
structure Profile : Type where
  id : String
  user_id : String
  username : String
  bio : String
  dp_url : Option String
deriving DecidableEq, Repr

/-- Message kind from `src/types.ts`: `'text' | 'image' | 'audio'`. -/
inductive MsgType : Type
  | text
  | image
  | audio
deriving DecidableEq, Repr

/-- A row of the `messages` table (`src/types.ts`), without the joined
profile field. -/
structure Message : Type where
  id : String
  sender_id : String
  type : MsgType
  content : String
  created_at : Nat
deriving DecidableEq, Repr

/-- A message with its transient joined sender profile
(`profiles?: Profile` in `src/types.ts`). -/
structure MessageJ extends Message where
  profiles : Option Profile
deriving DecidableEq, Repr

/-- The relational store: the four tables of the schema. -/
structure Store : Type where
  roles : List RoleAssignment
  requests : List AccessRequest
  profiles : List Profile
  messages : List Message
deriving DecidableEq, Repr

/-- `AppState` from `src/App.tsx` line 11:
`'loading' | 'auth' | 'request' | 'pending' | 'rejected' | 'profile' | 'chat' | 'admin'`. -/
inductive AppState : Type
  | loading
  | auth
  | request
  | pending
  | rejected
  | profile
  | chat
  | admin
deriving DecidableEq, Repr

/-- The local React state of `App` relevant to view resolution:
`view`, `userProfile`, `userRole` (`src/App.tsx` lines 15–17). -/
structure AppLocal : Type where
  view : AppState
  userProfile : Option Profile
  userRole : Option UserRole
deriving DecidableEq, Repr

/-- Outcome of one awaited store query: `ok d` models a response whose
`data` field is `d` (and `error` is null), `fail` models a response whose
`error` field is set (and `data` is null). -/
inductive QOutcome (α : Type) : Type
  | ok (d : Option α)
  | fail
deriving DecidableEq, Repr

/-- The `data` field obtained by destructuring `const \x7b data \x7d = await ...`:
a failed query contributes `null`. -/
def QOutcome.dataOf {α : Type} : QOutcome α → Option α
  | .ok d => d
  | .fail => none

/-- `.maybeSingle()` on a successful filter result: `data` is the row when
there is exactly one, `null` when there is none, and `null` again when
several rows match (the cardinality error is reported in the ignored
`error` field). -/
def maybeSingleD {α : Type} (l : List α) : Option α :=
  match l with
  | [] => none
  | [a] => some a
  | _ => none

/-- The admin role query of `determineView` (`src/App.tsx` lines 49–54):
`from('roles').select('role').eq('user_id', userId).eq('role', 'admin').maybeSingle()`. -/
def roleQ (s : Store) (uid : String) : Option RoleAssignment :=
  maybeSingleD (s.roles.filter
    (fun ra => decide (ra.user_id = uid) && decide (ra.role = UserRole.admin)))

/-- The access-request query of `determineView` (`src/App.tsx` lines 85–89):
`from('access_requests').select('*').eq('user_id', userId).maybeSingle()`. -/
def reqQ (s : Store) (uid : String) : Option AccessRequest :=
  maybeSingleD (s.requests.filter (fun r => decide (r.user_id = uid)))

/-- The profile query of `determineView` (`src/App.tsx` lines 59–63 and
110–114): `from('profiles').select('*').eq('user_id', userId).maybeSingle()`. -/
def profQ (s : Store) (uid : String) : Option Profile :=
  maybeSingleD (s.profiles.filter (fun p => decide (p.user_id = uid)))

/-- The temporary profile object built for admins without a stored profile
(`src/App.tsx` lines 68–74). -/
def adminPlaceholder (uid : String) : Profile :=
  { id := "admin-temp"
    user_id := uid
    username := "Admin"
    bio := "System Administrator"
    dp_url := some "" }

/-- The dummy display profile built in the realtime insert handler when the
sender profile lookup returns no data (`src/components/CreateProfile.tsx`
ChatInterface part, line 149). -/
def chatPlaceholder (uid : String) : Profile :=
  { id := "admin"
    user_id := uid
    username := "Admin"
    bio := "Administrator"
    dp_url := none }

/-- The body of `determineView` (`src/App.tsx` lines 43–127) expressed over
the `data` fields of its four awaited queries, in program order:

1. `if (view === 'auth') setView('loading')`;
2. admin role query: on data, set role `admin`, set the stored profile or
   the admin placeholder, and `setView(prev => prev === 'chat' ? 'chat' : 'admin')`;
3. otherwise set role `member` and dispatch on the access-request data:
   none → `request`; `pending` → `pending`; `rejected` → `rejected`;
   `approved` → profile query: data → set profile, `chat`; none → `profile`.

The surrounding `try/catch` (fallback `setView('auth')`) is reachable only
through a rejected promise; under the store-access model above none of the
four awaits rejects, so no branch of this function produces it. -/
def determineViewCore (roleData : Option RoleAssignment) (adminProfData : Option Profile)
    (reqData : Option AccessRequest) (profData : Option Profile)
    (uid : String) (st : AppLocal) : AppLocal :=
  let st1 := if st.view = AppState.auth then { st with view := AppState.loading } else st
  match roleData with
  | some _ =>
      let prof := match adminProfData with
        | some p => p
        | none => adminPlaceholder uid
      { st1 with userRole := some UserRole.admin
                 userProfile := some prof
                 view := if st1.view = AppState.chat then AppState.chat else AppState.admin }
  | none =>
      let st2 := { st1 with userRole := some UserRole.member }
      match reqData with
      | none => { st2 with view := AppState.request }
      | some req =>
          match req.status with
          | RequestStatus.pending => { st2 with view := AppState.pending }
          | RequestStatus.rejected => { st2 with view := AppState.rejected }
          | RequestStatus.approved =>
              match profData with
              | some p => { st2 with userProfile := some p, view := AppState.chat }
              | none => { st2 with view := AppState.profile }

/-- `determineView` against a store in which every query succeeds: the
queries are evaluated on the store's current rows. -/
def determineView (s : Store) (uid : String) (st : AppLocal) : AppLocal :=
  determineViewCore (roleQ s uid) (profQ s uid) (reqQ s uid) (profQ s uid) uid st

/-- `determineView` with explicit per-query outcomes (each of the four
awaited queries may independently fail); the code destructures only the
`data` field of each result. -/
def determineViewF (roleOut : QOutcome RoleAssignment) (adminProfOut : QOutcome Profile)
    (reqOut : QOutcome AccessRequest) (profOut : QOutcome Profile)
    (uid : String) (st : AppLocal) : AppLocal :=
  determineViewCore roleOut.dataOf adminProfOut.dataOf reqOut.dataOf profOut.dataOf uid st

/-- `from('roles').upsert([\x7b user_id, role: 'member' \x7d], \x7b onConflict: 'user_id' \x7d)`
(`src/components/AccessRequestForm.tsx` AdminDashboard part, lines 185–187):
if a row with this `user_id` exists, its `role` column is set to `member`;
otherwise a fresh row (with a store-generated id, passed in as `newId`) is
inserted. -/
def upsertRole (roles : List RoleAssignment) (uid : String) (newId : String) :
    List RoleAssignment :=
  if roles.any (fun ra => decide (ra.user_id = uid)) then
    roles.map (fun ra => if ra.user_id = uid then { ra with role := UserRole.member } else ra)
  else
    roles ++ [{ id := newId, user_id := uid, role := UserRole.member }]

/-- The user-visible outcome of an admin decision: the store after the call,
whether the `catch` branch showed its alert
(`alert("Failed to update user status")`), and the `actionLoading` marker
(always cleared by the `finally` block). -/
structure DecisionR : Type where
  store : Store
  alerted : Bool
  actionLoading : Option String
deriving DecidableEq, Repr

/-- `handleDecision(id, userId, status)` (`src/components/AccessRequestForm.tsx`
AdminDashboard part, lines 172–209), with explicit per-operation outcomes:

1. `update(\x7b status \x7d).eq('id', id)` on `access_requests`; its error field is
   checked (`if (updateError) throw updateError`), so on failure control
   jumps to the `catch` (alert) and `finally` with no further store access.
2. on `approved`, the member-role upsert; otherwise
   `delete().eq('user_id', userId)` on `roles`.  The results of these two
   calls are not destructured and not checked, so a failure there is
   silent: the corresponding store mutation simply does not happen and
   execution continues normally.

A failed operation leaves the store unchanged. -/
def handleDecisionF (s : Store) (rid uid : String) (d : RequestStatus) (newId : String)
    (updateOk upsertOk deleteOk : Bool) : DecisionR :=
  if updateOk = false then
    { store := s, alerted := true, actionLoading := none }
  else
    let s1 : Store :=
      { s with requests :=
          s.requests.map (fun r => if r.id = rid then { r with status := d } else r) }
    let s2 : Store :=
      if d = RequestStatus.approved then
        (if upsertOk then { s1 with roles := upsertRole s1.roles uid newId } else s1)
      else
        (if deleteOk then
          { s1 with roles := s1.roles.filter (fun ra => !(decide (ra.user_id = uid))) }
        else s1)
    { store := s2, alerted := false, actionLoading := none }

/-- `handleDecision` in the failure-free case: every store operation
succeeds. -/
def handleDecision (s : Store) (rid uid : String) (d : RequestStatus) (newId : String) :
    Store :=
  (handleDecisionF s rid uid d newId true true true).store

/-- The user-visible outcome of `handleSendMessage`: the composer text
(`newMessage`), whether any user-visible notice was raised (the `catch`
block only does `console.error`), and the `sending` flag (cleared by
`finally`). -/
structure SendR : Type where
  composer : String
  alerted : Bool
  sending : Bool
deriving DecidableEq, Repr

/-- `handleSendMessage(type, content)` (`src/components/CreateProfile.tsx`
ChatInterface part, lines 177–191): `setSending(true)`; insert the message
(the result object is discarded, so an insert error — `insertOk = false` —
is silently ignored and the insert simply does not happen);
`setNewMessage('')`; `finally setSending(false)`.  No branch raises a
user-visible notice. -/
def handleSendMessage (s : Store) (senderId newId : String) (now : Nat)
    (insertOk : Bool) (ty : MsgType) (content : String) (composer : String) :
    Store × SendR :=
  let s1 : Store :=
    if insertOk then
      { s with messages :=
          s.messages ++ [{ id := newId, sender_id := senderId, type := ty,
                           content := content, created_at := now }] }
    else s
  (s1, { composer := "", alerted := false, sending := false })

/-- The left join performed by the initial bulk fetch
(`select('*, profiles(*)')`, `src/components/CreateProfile.tsx`
ChatInterface part, lines 164–175): each message is paired with the profile
row whose `user_id` equals its `sender_id`, if any. -/
def joinFetch (s : Store) (m : Message) : MessageJ :=
  { m with profiles := s.profiles.find? (fun p => decide (p.user_id = m.sender_id)) }

/-- The initial bulk fetch: all messages ordered by `created_at` ascending,
each left-joined with its sender's profile. -/
def fetchMessages (s : Store) : List MessageJ :=
  (s.messages.mergeSort (fun a b => decide (a.created_at ≤ b.created_at))).map (joinFetch s)

/-- The realtime insert handler's per-event join
(`src/components/CreateProfile.tsx` ChatInterface part, lines 144–151):
a point lookup `from('profiles').select('*').eq('user_id', sender_id).single()`
(whose `data` is the row when exactly one matches, `null` otherwise), then
`const displayProfile = data || \x7b ...dummy... \x7d`. -/
def joinEvent (s : Store) (m : Message) : MessageJ :=
  let d : Option Profile :=
    match s.profiles.filter (fun p => decide (p.user_id = m.sender_id)) with
    | [p] => some p
    | _ => none
  let displayProfile := match d with
    | some p => p
    | none => chatPlaceholder m.sender_id
  { m with profiles := some displayProfile }

/-- The feed after a run of realtime insert events:
`setMessages(prev => [...prev, \x7b ...newMsg, profiles: displayProfile \x7d])`
applied once per event in arrival order. -/
def processEvents (s : Store) (init : List MessageJ) (evs : List Message) :
    List MessageJ :=
  evs.foldl (fun acc m => acc ++ [joinEvent s m]) init

/-- Spec-side predicate: the user has a role row with role `admin`. -/
def Store.hasAdminRole (s : Store) (uid : String) : Bool :=
  s.roles.any (fun ra => decide (ra.user_id = uid) && decide (ra.role = UserRole.admin))

/-- Spec-side predicate: an access request with status `approved` exists for
the user. -/
def Store.hasApprovedRequest (s : Store) (uid : String) : Bool :=
  s.requests.any (fun r => decide (r.user_id = uid) && decide (r.status = RequestStatus.approved))

/-- Spec-side predicate: a profile row exists for the user. -/
def Store.hasProfile (s : Store) (uid : String) : Bool :=
  s.profiles.any (fun p => decide (p.user_id = uid))

/-- Schema/data-model well-formedness at one user: at most one role row, at
most one access request and at most one profile for that user (`user_id`
is unique on `roles` and `profiles`; §3 of the spec assumes at most one
request per user). -/
def Store.wfFor (s : Store) (uid : String) : Prop :=
  (s.roles.filter (fun ra => decide (ra.user_id = uid))).length ≤ 1 ∧
  (s.requests.filter (fun r => decide (r.user_id = uid))).length ≤ 1 ∧
  (s.profiles.filter (fun p => decide (p.user_id = uid))).length ≤ 1

instance (s : Store) (uid : String) : Decidable (s.wfFor uid) := by
  unfold Store.wfFor
  infer_instance

/-! ### Helper lemmas -/

/-- A filter whose result has at most one element is empty or a singleton. -/
theorem filter_len_le_one_cases {α : Type} (p : α → Bool) (l : List α)
    (h : (l.filter p).length ≤ 1) :
    l.filter p = [] ∨ ∃ a, l.filter p = [a] := by
  cases hl : l.filter p with
  | nil => exact Or.inl rfl
  | cons a t =>
    right
    refine ⟨a, ?_⟩
    cases ht : t with
    | nil => rfl
    | cons b u =>
      rw [hl, ht] at h
      simp at h

/-- Conjunctive filters never grow: filtering by `p && q` keeps at most the
elements kept by filtering by `p`. -/
theorem length_filter_and_le {α : Type} (p q : α → Bool) (l : List α) :
    (l.filter (fun a => p a && q a)).length ≤ (l.filter p).length := by
  induction l with
  | nil => simp
  | cons a t ih =>
    cases hp : p a <;> cases hq : q a <;>
      simp [List.filter_cons, hp, hq] <;> omega

/-- Splitting a conjunctive filter into two successive filters. -/
theorem filter_and_eq_filter_filter {α : Type} (p q : α → Bool) (l : List α) :
    l.filter (fun a => p a && q a) = (l.filter p).filter q := by
  induction l with
  | nil => rfl
  | cons a t ih =>
    cases hp : p a <;> cases hq : q a <;>
      simp [List.filter_cons, hp, hq, ih]

/-- Filtering by `p && q` after keeping only the elements with `!p` yields
nothing. -/
theorem filter_and_after_filter_not {α : Type} (p q : α → Bool) (l : List α) :
    (l.filter (fun a => !(p a))).filter (fun a => p a && q a) = [] := by
  induction l with
  | nil => rfl
  | cons a t ih =>
    cases hp : p a <;> simp [List.filter_cons, hp, ih]

/-- Filtering by `p` after keeping only the elements with `!p` yields
nothing. -/
theorem filter_after_filter_not {α : Type} (p : α → Bool) (l : List α) :
    (l.filter (fun a => !(p a))).filter p = [] := by
  induction l with
  | nil => rfl
  | cons a t ih =>
    cases hp : p a <;> simp [List.filter_cons, hp, ih]

/-- A map that does not change the filtered predicate commutes with the
filter. -/
theorem filter_map_pres {α : Type} (f : α → α) (p : α → Bool)
    (hf : ∀ a, p (f a) = p a) (l : List α) :
    (l.map f).filter p = (l.filter p).map f := by
  induction l with
  | nil => rfl
  | cons a t ih =>
    cases hp : p a <;>
      simp [List.filter_cons, hf, hp, ih]

/-- Success of `maybeSingleD` over a short filter coincides with `any`. -/
theorem maybeSingleD_filter_isSome {α : Type} (p : α → Bool) (l : List α)
    (h : (l.filter p).length ≤ 1) :
    (maybeSingleD (l.filter p)).isSome = l.any p := by
  rcases filter_len_le_one_cases p l h with hl | ⟨a, hl⟩
  · rw [hl]
    have hany : l.any p = false := by
      rw [← Bool.not_eq_true, List.any_eq_true]
      rintro ⟨x, hx, hpx⟩
      have : x ∈ l.filter p := List.mem_filter.mpr ⟨hx, hpx⟩
      rw [hl] at this
      simp at this
    rw [hany]
    rfl
  · rw [hl]
    have ha : a ∈ l.filter p := by rw [hl]; exact List.mem_cons_self a []
    have hmem := List.mem_filter.mp ha
    have hany : l.any p = true := List.any_eq_true.mpr ⟨a, hmem.1, hmem.2⟩
    rw [hany]
    rfl

/-- What a successful `maybeSingleD` over a short filter returns: the unique
matching element. -/
theorem maybeSingleD_filter_eq_some {α : Type} (p : α → Bool) (l : List α) (a : α)
    (h : (l.filter p).length ≤ 1) (hs : maybeSingleD (l.filter p) = some a) :
    l.filter p = [a] := by
  rcases filter_len_le_one_cases p l h with hl | ⟨b, hl⟩
  · rw [hl] at hs
    simp [maybeSingleD] at hs
  · rw [hl] at hs ⊢
    simp [maybeSingleD] at hs
    rw [hs]

/-- When the plain filter by `p` is the singleton `[b]`, `any` over the
conjunction `p && q` reduces to whether `b` satisfies `q`. -/
theorem any_and_of_filter_single {α : Type} (p q : α → Bool) (l : List α) (b : α)
    (hl : l.filter p = [b]) :
    (l.any (fun a => p a && q a)) = q b := by
  have hb : b ∈ l ∧ p b = true := by
    have : b ∈ l.filter p := by
      rw [hl]; exact List.mem_cons_self b []
    exact List.mem_filter.mp this
  cases hq : q b with
  | true =>
    exact List.any_eq_true.mpr ⟨b, hb.1, by rw [hb.2, hq]; rfl⟩
  | false =>
    rw [← Bool.not_eq_true, List.any_eq_true]
    rintro ⟨x, hx, hpx⟩
    have hpq := Bool.and_eq_true_iff.mp hpx
    have : x ∈ l.filter p := List.mem_filter.mpr ⟨hx, hpq.1⟩
    rw [hl] at this
    have hxb : x = b := by simpa using this
    rw [hxb, hq] at hpq
    exact Bool.false_ne_true hpq.2

/-- `any` over a conjunction implies `any` over the first conjunct. -/
theorem any_of_any_and {α : Type} (p q : α → Bool) (l : List α)
    (h : l.any (fun a => p a && q a) = true) :
    l.any p = true := by
  rw [List.any_eq_true] at h ⊢
  obtain ⟨x, hx, hpx⟩ := h
  exact ⟨x, hx, (Bool.and_eq_true_iff.mp hpx).1⟩

/-! ### View characterization -/

/-- The view selected by one invocation of `determineView`, as a function of
the three relevant query data fields and the previous view. -/
def viewOf (roleData : Option RoleAssignment) (reqData : Option AccessRequest)
    (profData : Option Profile) (prev : AppState) : AppState :=
  match roleData with
  | some _ => if prev = AppState.chat then AppState.chat else AppState.admin
  | none =>
    match reqData with
    | none => AppState.request
    | some req =>
      match req.status with
      | RequestStatus.pending => AppState.pending
      | RequestStatus.rejected => AppState.rejected
      | RequestStatus.approved =>
        match profData with
        | some _ => AppState.chat
        | none => AppState.profile

/-- The `view` component of `determineViewCore` is `viewOf`: the transient
`loading` shim only replaces an `auth` view, which is not `chat`, so the
sticky comparison is unaffected. -/
theorem determineViewCore_view (roleData : Option RoleAssignment)
    (adminProfData : Option Profile) (reqData : Option AccessRequest)
    (profData : Option Profile) (uid : String) (st : AppLocal) :
    (determineViewCore roleData adminProfData reqData profData uid st).view =
      viewOf roleData reqData profData st.view := by
  unfold determineViewCore viewOf
  rcases roleData with _ | ra
  · rcases reqData with _ | req
    · by_cases h : st.view = AppState.auth <;> simp [h]
    · rcases hst : req.status <;>
        rcases profData with _ | p <;>
        by_cases h : st.view = AppState.auth <;>
        simp [h, hst]
  · by_cases h : st.view = AppState.auth
    · rw [if_pos h]
      simp [h]
    · rw [if_neg h]

/-- `determineView` through `viewOf`. -/
theorem determineView_view (s : Store) (uid : String) (st : AppLocal) :
    (determineView s uid st).view = viewOf (roleQ s uid) (reqQ s uid) (profQ s uid) st.view :=
  determineViewCore_view _ _ _ _ _ _

/-- Under role-row uniqueness, the admin role query succeeds exactly when an
admin role row exists for the user. -/
theorem roleQ_isSome (s : Store) (uid : String)
    (h : (s.roles.filter (fun ra => decide (ra.user_id = uid))).length ≤ 1) :
    (roleQ s uid).isSome = s.hasAdminRole uid := by
  unfold roleQ Store.hasAdminRole
  exact maybeSingleD_filter_isSome _ _ (le_trans (length_filter_and_le _ _ _) h)

/-- Under request uniqueness, the access-request query succeeds exactly when
a request row exists for the user. -/
theorem reqQ_isSome (s : Store) (uid : String)
    (h : (s.requests.filter (fun r => decide (r.user_id = uid))).length ≤ 1) :
    (reqQ s uid).isSome = s.requests.any (fun r => decide (r.user_id = uid)) := by
  unfold reqQ
  exact maybeSingleD_filter_isSome _ _ h

/-- Under profile uniqueness, the profile query succeeds exactly when a
profile row exists for the user. -/
theorem profQ_isSome (s : Store) (uid : String)
    (h : (s.profiles.filter (fun p => decide (p.user_id = uid))).length ≤ 1) :
    (profQ s uid).isSome = s.hasProfile uid := by
  unfold profQ Store.hasProfile
  exact maybeSingleD_filter_isSome _ _ h

/-! ### Claim theorems: view resolution -/

/-- Claim C1 fails as literally stated: for a user with an admin role row
whose current view is not chat, the resolver yields admin-home, not chat,
although the claimed right-hand side (admin role present) holds in this
store. -/
theorem determineView_chat_iff_cex :
    Store.hasAdminRole ⟨[⟨"r1", "u1", UserRole.admin⟩], [], [], []⟩ "u1" = true ∧
    (determineView ⟨[⟨"r1", "u1", UserRole.admin⟩], [], [], []⟩ "u1"
        ⟨AppState.auth, none, none⟩).view = AppState.admin ∧
    ¬ (determineView ⟨[⟨"r1", "u1", UserRole.admin⟩], [], [], []⟩ "u1"
        ⟨AppState.auth, none, none⟩).view = AppState.chat := by
  refine ⟨?_, ?_, ?_⟩ <;> decide

/-- Claim C1 (amended): with at most one role row, one access request and
one profile per user, an invocation of the View Resolver yields the chat
view iff either the user has an admin role row and the current view is
already chat (sticky-view rule), or the user has no admin role row and an
approved access request and a profile both exist; the result is a function
of the store state together with the current view. -/
theorem determineView_chat_iff (s : Store) (uid : String) (st : AppLocal)
    (hwf : s.wfFor uid) :
    ((determineView s uid st).view = AppState.chat ↔
      ((s.hasAdminRole uid = true ∧ st.view = AppState.chat) ∨
       (s.hasAdminRole uid = false ∧ s.hasApprovedRequest uid = true ∧
         s.hasProfile uid = true))) := by
  obtain ⟨hR, hQ, hP⟩ := hwf
  rw [determineView_view]
  cases hro : roleQ s uid with
  | some ra =>
    have hadm : s.hasAdminRole uid = true := by
      rw [← roleQ_isSome s uid hR, hro]
      rfl
    rw [hadm]
    unfold viewOf
    by_cases hc : st.view = AppState.chat <;> simp [hc]
  | none =>
    have hadm : s.hasAdminRole uid = false := by
      rw [← roleQ_isSome s uid hR, hro]
      rfl
    rw [hadm]
    cases hrq : reqQ s uid with
    | none =>
      have hnone : s.hasApprovedRequest uid = false := by
        cases happ : s.hasApprovedRequest uid with
        | false => rfl
        | true =>
          exfalso
          have hany := any_of_any_and _ _ _ (by
            unfold Store.hasApprovedRequest at happ
            exact happ)
          rw [← reqQ_isSome s uid hQ, hrq] at hany
          simp at hany
      rw [hnone]
      unfold viewOf
      simp
    | some req =>
      have hfil : s.requests.filter (fun r => decide (r.user_id = uid)) = [req] :=
        maybeSingleD_filter_eq_some _ _ _ hQ hrq
      have happ : s.hasApprovedRequest uid = decide (req.status = RequestStatus.approved) := by
        unfold Store.hasApprovedRequest
        exact any_and_of_filter_single _ _ _ _ hfil
      unfold viewOf
      rcases hst : req.status with _ | _ | _
      · rw [hst] at happ
        simp at happ
        simp [happ, hst]
      · rw [hst] at happ
        simp at happ
        cases hpq : profQ s uid with
        | some p =>
          have hprof : s.hasProfile uid = true := by
            rw [← profQ_isSome s uid hP, hpq]
            rfl
          simp [happ, hprof, hst]
        | none =>
          have hprof : s.hasProfile uid = false := by
            rw [← profQ_isSome s uid hP, hpq]
            rfl
          simp [happ, hprof, hst]
      · rw [hst] at happ
        simp at happ
        simp [happ, hst]

/-- Claim C3: a user with an admin role row resolves to admin-home unless
the current view is already chat, in which case it stays chat (sticky-view
rule); such a user is never sent to the request, pending, rejected or
profile views. -/
theorem admin_view_sticky (s : Store) (uid : String) (st : AppLocal) (ra : RoleAssignment)
    (h1 : s.roles.filter (fun x => decide (x.user_id = uid)) = [ra])
    (h2 : ra.role = UserRole.admin) :
    ((st.view = AppState.chat → (determineView s uid st).view = AppState.chat) ∧
     (st.view ≠ AppState.chat → (determineView s uid st).view = AppState.admin) ∧
     (determineView s uid st).view ≠ AppState.request ∧
     (determineView s uid st).view ≠ AppState.pending ∧
     (determineView s uid st).view ≠ AppState.rejected ∧
     (determineView s uid st).view ≠ AppState.profile) := by
  have hro : roleQ s uid = some ra := by
    unfold roleQ
    rw [filter_and_eq_filter_filter, h1, List.filter_cons]
    simp [h2, maybeSingleD]
  rw [determineView_view, hro]
  unfold viewOf
  by_cases hc : st.view = AppState.chat <;> simp [hc]

/-- Claim C10: the resolver's output is unaffected by the presence of a
member-role row for the user: the role query filters on role = admin, and
no other part of the resolver reads the roles table. -/
theorem determineView_member_role_invariant (s : Store) (uid : String) (st : AppLocal)
    (m : RoleAssignment) (hm : m.role = UserRole.member) (hu : m.user_id = uid) :
    determineView { s with roles := m :: s.roles } uid st = determineView s uid st := by
  have hq : roleQ { s with roles := m :: s.roles } uid = roleQ s uid := by
    simp [roleQ, List.filter_cons, hm]
  unfold determineView
  rw [hq]
  rfl

/-! ### Claim theorems: admin decision workflow -/

/-- Claim C4: rejecting a previously approved user with an existing role row
deletes every role row for that user, sets the user's access request to
rejected, and makes the next resolution for that user yield the rejected
view. -/
theorem reject_revokes_and_resolves_rejected (s : Store) (rid uid nid : String)
    (r : AccessRequest) (st : AppLocal)
    (hreq : s.requests.filter (fun x => decide (x.user_id = uid)) = [r])
    (hid : r.id = rid)
    (happ : r.status = RequestStatus.approved)
    (hrole : ∃ ra ∈ s.roles, ra.user_id = uid) :
    ((handleDecision s rid uid RequestStatus.rejected nid).roles.filter
        (fun ra => decide (ra.user_id = uid)) = [] ∧
     (handleDecision s rid uid RequestStatus.rejected nid).requests.filter
        (fun x => decide (x.user_id = uid)) = [{ r with status := RequestStatus.rejected }] ∧
     (determineView (handleDecision s rid uid RequestStatus.rejected nid) uid st).view =
        AppState.rejected) := by
  have hstore : handleDecision s rid uid RequestStatus.rejected nid =
      { roles := s.roles.filter (fun ra => !(decide (ra.user_id = uid)))
        requests := s.requests.map
          (fun x => if x.id = rid then { x with status := RequestStatus.rejected } else x)
        profiles := s.profiles
        messages := s.messages } := rfl
  have hfp : ∀ x : AccessRequest,
      (fun y : AccessRequest => decide (y.user_id = uid))
        ((fun y => if y.id = rid then { y with status := RequestStatus.rejected } else y) x) =
      (fun y : AccessRequest => decide (y.user_id = uid)) x := by
    intro x
    by_cases hx : x.id = rid <;> simp [hx]
  have hreqs : (handleDecision s rid uid RequestStatus.rejected nid).requests.filter
      (fun x => decide (x.user_id = uid)) = [{ r with status := RequestStatus.rejected }] := by
    rw [hstore]
    show (s.requests.map _).filter _ = _
    rw [filter_map_pres _ _ hfp, hreq]
    simp [hid]
  refine ⟨?_, hreqs, ?_⟩
  · rw [hstore]
    exact filter_after_filter_not _ _
  · rw [determineView_view]
    have h1 : roleQ (handleDecision s rid uid RequestStatus.rejected nid) uid = none := by
      rw [hstore]
      unfold roleQ
      rw [show ({ roles := s.roles.filter (fun ra => !(decide (ra.user_id = uid)))
                  requests := s.requests.map
                    (fun x => if x.id = rid then { x with status := RequestStatus.rejected } else x)
                  profiles := s.profiles
                  messages := s.messages } : Store).roles =
            s.roles.filter (fun ra => !(decide (ra.user_id = uid))) from rfl]
      rw [filter_and_after_filter_not]
      rfl
    have h2 : reqQ (handleDecision s rid uid RequestStatus.rejected nid) uid =
        some { r with status := RequestStatus.rejected } := by
      unfold reqQ
      rw [show (handleDecision s rid uid RequestStatus.rejected nid).requests.filter
            (fun x => decide (x.user_id = uid)) = [{ r with status := RequestStatus.rejected }]
          from hreqs]
      rfl
    rw [h1, h2]
    rfl

/-- Claim C5: if the access-request status update fails, the decision
workflow aborts with no store side effects at all; in particular no role
row is created, updated or deleted, and the failure alert is raised. -/
theorem decision_aborts_on_update_failure (s : Store) (rid uid nid : String)
    (d : RequestStatus) (b2 b3 : Bool) :
    (handleDecisionF s rid uid d nid false b2 b3).store = s ∧
    (handleDecisionF s rid uid d nid false b2 b3).store.roles = s.roles ∧
    (handleDecisionF s rid uid d nid false b2 b3).alerted = true :=
  ⟨rfl, rfl, rfl⟩

/-- After an upsert, the user's role rows form exactly one member row. -/
theorem upsertRole_filter (roles : List RoleAssignment) (uid nid : String)
    (h : (roles.filter (fun ra => decide (ra.user_id = uid))).length ≤ 1) :
    ∃ i, (upsertRole roles uid nid).filter (fun ra => decide (ra.user_id = uid)) =
      [{ id := i, user_id := uid, role := UserRole.member }] := by
  unfold upsertRole
  by_cases hany : roles.any (fun ra => decide (ra.user_id = uid)) = true
  · rw [if_pos hany]
    rcases filter_len_le_one_cases _ _ h with hnil | ⟨b, hb⟩
    · exfalso
      obtain ⟨x, hx, hpx⟩ := List.any_eq_true.mp hany
      have hxm : x ∈ roles.filter (fun ra => decide (ra.user_id = uid)) :=
        List.mem_filter.mpr ⟨hx, hpx⟩
      rw [hnil] at hxm
      simp at hxm
    · have hbu : b.user_id = uid := by
        have hbm : b ∈ roles.filter (fun ra => decide (ra.user_id = uid)) := by
          rw [hb]
          exact List.mem_cons_self b []
        exact of_decide_eq_true (List.mem_filter.mp hbm).2
      have hfp : ∀ a : RoleAssignment,
          (fun ra : RoleAssignment => decide (ra.user_id = uid))
            ((fun ra => if ra.user_id = uid then { ra with role := UserRole.member } else ra) a) =
          (fun ra : RoleAssignment => decide (ra.user_id = uid)) a := by
        intro a
        by_cases ha : a.user_id = uid <;> simp [ha]
      refine ⟨b.id, ?_⟩
      rw [filter_map_pres _ _ hfp, hb]
      rcases b with ⟨bid, bu, br⟩
      simp at hbu
      simp [hbu]
  · rw [if_neg hany]
    refine ⟨nid, ?_⟩
    rw [List.filter_append]
    have h1 : roles.filter (fun ra => decide (ra.user_id = uid)) = [] := by
      rw [List.filter_eq_nil_iff]
      intro a ha hpa
      exact hany (List.any_eq_true.mpr ⟨a, ha, hpa⟩)
    rw [h1]
    simp

/-- Claim C6: approving the same user's request twice in succession leaves
exactly one member-role row for that user in the store — the upsert is
idempotent and creates no duplicate role rows. -/
theorem approve_twice_single_member_role (s : Store) (rid uid nid1 nid2 : String)
    (hwf : (s.roles.filter (fun ra => decide (ra.user_id = uid))).length ≤ 1) :
    ∃ i, ((handleDecision (handleDecision s rid uid RequestStatus.approved nid1)
        rid uid RequestStatus.approved nid2).roles.filter
        (fun ra => decide (ra.user_id = uid))) =
      [{ id := i, user_id := uid, role := UserRole.member }] := by
  have hr1 : (handleDecision s rid uid RequestStatus.approved nid1).roles =
      upsertRole s.roles uid nid1 := rfl
  obtain ⟨i, hi⟩ := upsertRole_filter s.roles uid nid1 hwf
  have hlen : ((handleDecision s rid uid RequestStatus.approved nid1).roles.filter
      (fun ra => decide (ra.user_id = uid))).length ≤ 1 := by
    rw [hr1, hi]
    simp
  obtain ⟨j, hj⟩ := upsertRole_filter _ uid nid2 hlen
  exact ⟨j, hj⟩

/-! ### Claim theorems: failure handling -/

/-- Claim C2 evaluated at failing inputs: when the store queries of the
View Resolver fail, the resolver does not fall back to the unauthenticated
view — with all four queries erroring it yields the awaiting-request view,
and no combination of query outcomes can ever produce the auth view,
because the destructured error fields are never inspected and no await
rejects. -/
theorem query_failure_not_auth :
    (determineViewF QOutcome.fail QOutcome.fail QOutcome.fail QOutcome.fail "u1"
        ⟨AppState.auth, none, none⟩).view = AppState.request ∧
    ∀ (ro : QOutcome RoleAssignment) (ap : QOutcome Profile) (rq : QOutcome AccessRequest)
      (pq : QOutcome Profile) (uid : String) (st : AppLocal),
      ¬ (determineViewF ro ap rq pq uid st).view = AppState.auth := by
  constructor
  · rfl
  · intro ro ap rq pq uid st
    unfold determineViewF
    rw [determineViewCore_view]
    unfold viewOf
    rcases ro.dataOf with _ | ra
    · rcases rq.dataOf with _ | req
      · simp
      · rcases hst : req.status <;> rcases pq.dataOf with _ | p <;> simp [hst]
    · by_cases hc : st.view = AppState.chat <;> simp [hc]

/-- Claim C9 fails as stated on the text-send path: at a concrete failed
insert, the composer is cleared anyway and no user-visible notice is
raised, while the message is not stored. -/
theorem send_failure_cex :
    (handleSendMessage ⟨[], [], [], []⟩ "u1" "m1" 0 false MsgType.text "hello" "hello").2 =
      { composer := "", alerted := false, sending := false } ∧
    (handleSendMessage ⟨[], [], [], []⟩ "u1" "m1" 0 false MsgType.text "hello" "hello").1 =
      ⟨[], [], [], []⟩ :=
  ⟨rfl, rfl⟩

/-- Claim C9 (amended): failing workflow operations clear their busy
indicators; a failed admin status update raises the alert notice and
leaves the store untouched; but a role upsert failure after a successful
status update is silently ignored (no notice), and a failed text send
raises no notice and still clears the composer exactly as on success. -/
theorem failure_handling_amended (s s2 : Store) (sid nid rid uid nid2 : String)
    (now : Nat) (ty : MsgType) (content comp : String) (d : RequestStatus) (b2 b3 : Bool) :
    ((handleSendMessage s sid nid now false ty content comp).2 =
        { composer := "", alerted := false, sending := false } ∧
     (handleSendMessage s sid nid now false ty content comp).1 = s) ∧
    ((handleDecisionF s2 rid uid d nid2 false b2 b3).alerted = true ∧
     (handleDecisionF s2 rid uid d nid2 false b2 b3).store = s2) ∧
    ((handleDecisionF s2 rid uid RequestStatus.approved nid2 true false b3).alerted = false ∧
     (handleDecisionF s2 rid uid RequestStatus.approved nid2 true false b3).store.roles =
       s2.roles) :=
  ⟨⟨rfl, rfl⟩, ⟨rfl, rfl⟩, ⟨rfl, rfl⟩⟩

/-! ### Claim theorems: message feed -/

/-- Appending one joined entry per event: the fold of the live-update
handler equals the initial list followed by the joined events in arrival
order. -/
theorem processEvents_eq (s : Store) (init : List MessageJ) (evs : List Message) :
    processEvents s init evs = init ++ evs.map (joinEvent s) := by
  induction evs generalizing init with
  | nil => simp [processEvents]
  | cons e t ih =>
    unfold processEvents at ih ⊢
    rw [List.foldl_cons, ih, List.map_cons]
    simp

/-- The initial bulk fetch is sorted by `created_at` ascending. -/
theorem fetchMessages_sorted (s : Store) :
    List.Pairwise (fun a b : MessageJ => a.created_at ≤ b.created_at) (fetchMessages s) := by
  unfold fetchMessages
  rw [List.pairwise_map]
  have htrans : ∀ a b c : Message,
      (fun a b : Message => decide (a.created_at ≤ b.created_at)) a b = true →
      (fun a b : Message => decide (a.created_at ≤ b.created_at)) b c = true →
      (fun a b : Message => decide (a.created_at ≤ b.created_at)) a c = true := by
    intro a b c hab hbc
    simp at hab hbc ⊢
    omega
  have htotal : ∀ a b : Message,
      ((fun a b : Message => decide (a.created_at ≤ b.created_at)) a b ||
       (fun a b : Message => decide (a.created_at ≤ b.created_at)) b a) = true := by
    intro a b
    simp
    omega
  have hs := List.sorted_mergeSort htrans htotal s.messages
  exact hs.imp (fun hab => of_decide_eq_true hab)

/-- Claim C7: the displayed feed equals the snapshot — all stored messages
ordered by `created_at` ascending, each left-joined with its sender's
profile — followed by one appended joined entry per realtime event in
event-arrival order; the controller never re-sorts and never
de-duplicates. -/
theorem feed_snapshot_plus_arrival_order (s : Store) (evs : List Message) :
    processEvents s (fetchMessages s) evs = fetchMessages s ++ evs.map (joinEvent s) ∧
    List.Pairwise (fun a b : MessageJ => a.created_at ≤ b.created_at) (fetchMessages s) ∧
    ∀ mj ∈ fetchMessages s, mj.profiles =
      s.profiles.find? (fun p => decide (p.user_id = mj.sender_id)) := by
  refine ⟨processEvents_eq s _ evs, fetchMessages_sorted s, ?_⟩
  intro mj hmj
  unfold fetchMessages at hmj
  obtain ⟨m, hm, rfl⟩ := List.mem_map.mp hmj
  rfl

/-- Claim C8 fails as stated: at a concrete store with no profile row for
the sender, the feed controller attaches its own dummy profile, which is
not the placeholder the View Resolver synthesizes — in particular the
bios differ. -/
theorem feed_placeholder_cex :
    (joinEvent ⟨[], [], [], []⟩ ⟨"m1", "u1", MsgType.text, "hi", 0⟩).profiles =
      some (chatPlaceholder "u1") ∧
    ¬ chatPlaceholder "u1" = adminPlaceholder "u1" ∧
    ¬ (chatPlaceholder "u1").bio = (adminPlaceholder "u1").bio := by
  refine ⟨rfl, ?_, ?_⟩ <;> decide

/-- Claim C8 (amended): for an event whose sender has no profile row the
controller attaches the ChatInterface dummy profile: it shares the fixed
display name Admin with the resolver's placeholder and both have empty
media, but it is a different Profile — the bios (Administrator vs System
Administrator) and the avatar encodings (null vs empty string) differ. -/
theorem feed_placeholder_amended (s : Store) (m : Message)
    (h : s.profiles.filter (fun p => decide (p.user_id = m.sender_id)) = []) :
    ((joinEvent s m).profiles = some (chatPlaceholder m.sender_id) ∧
     (chatPlaceholder m.sender_id).username = (adminPlaceholder m.sender_id).username ∧
     (chatPlaceholder m.sender_id).dp_url = none ∧
     (adminPlaceholder m.sender_id).dp_url = some "" ∧
     ¬ (chatPlaceholder m.sender_id).bio = (adminPlaceholder m.sender_id).bio) := by
  refine ⟨?_, rfl, rfl, rfl, ?_⟩
  · unfold joinEvent
    rw [h]
  · intro hc
    exact (by decide : ¬ ("Administrator" : String) = "System Administrator") hc

/-! ### Witnesses -/

/-- Witness for `determineView_chat_iff`: a non-admin user with an approved
request and a profile resolves to chat. -/
theorem determineView_chat_iff_witness :
    (determineView ⟨[], [⟨"q1", "u1", "N", "R", RequestStatus.approved, 0⟩],
        [⟨"p1", "u1", "alex", "hi", some ""⟩], []⟩ "u1"
        ⟨AppState.auth, none, none⟩).view = AppState.chat :=
  (determineView_chat_iff ⟨[], [⟨"q1", "u1", "N", "R", RequestStatus.approved, 0⟩],
      [⟨"p1", "u1", "alex", "hi", some ""⟩], []⟩ "u1" ⟨AppState.auth, none, none⟩
      (by decide)).mpr (Or.inr ⟨by decide, by decide, by decide⟩)

/-- Witness for `admin_view_sticky`: an admin coming from the auth view is
sent to admin-home. -/
theorem admin_view_sticky_witness :
    (determineView ⟨[⟨"r1", "a1", UserRole.admin⟩], [], [], []⟩ "a1"
        ⟨AppState.auth, none, none⟩).view = AppState.admin :=
  (admin_view_sticky ⟨[⟨"r1", "a1", UserRole.admin⟩], [], [], []⟩ "a1"
      ⟨AppState.auth, none, none⟩ ⟨"r1", "a1", UserRole.admin⟩ (by decide) rfl).2.1
    (by decide)

/-- Witness for `determineView_member_role_invariant`: adding a member-role
row for the user does not change the resolved state. -/
theorem determineView_member_role_invariant_witness :
    determineView ⟨[⟨"r2", "u1", UserRole.member⟩], [], [], []⟩ "u1"
        ⟨AppState.auth, none, none⟩ =
      determineView ⟨[], [], [], []⟩ "u1" ⟨AppState.auth, none, none⟩ :=
  determineView_member_role_invariant ⟨[], [], [], []⟩ "u1" ⟨AppState.auth, none, none⟩
    ⟨"r2", "u1", UserRole.member⟩ rfl rfl

/-- Witness for `reject_revokes_and_resolves_rejected`: after rejecting a
previously approved member, the next resolution yields the rejected view. -/
theorem reject_revokes_witness :
    (determineView (handleDecision ⟨[⟨"ra1", "u1", UserRole.member⟩],
        [⟨"q1", "u1", "N", "R", RequestStatus.approved, 0⟩],
        [⟨"p1", "u1", "alex", "hi", some ""⟩], []⟩ "q1" "u1" RequestStatus.rejected "n1")
        "u1" ⟨AppState.auth, none, none⟩).view = AppState.rejected :=
  (reject_revokes_and_resolves_rejected ⟨[⟨"ra1", "u1", UserRole.member⟩],
      [⟨"q1", "u1", "N", "R", RequestStatus.approved, 0⟩],
      [⟨"p1", "u1", "alex", "hi", some ""⟩], []⟩ "q1" "u1" "n1"
      ⟨"q1", "u1", "N", "R", RequestStatus.approved, 0⟩ ⟨AppState.auth, none, none⟩
      (by decide) rfl rfl ⟨⟨"ra1", "u1", UserRole.member⟩, by decide, rfl⟩).2.2

/-- Witness for `approve_twice_single_member_role` at a concrete store with
no prior role row. -/
theorem approve_twice_witness :
    ∃ i, ((handleDecision (handleDecision
        ⟨[], [⟨"q1", "u1", "N", "R", RequestStatus.pending, 0⟩], [], []⟩
        "q1" "u1" RequestStatus.approved "n1") "q1" "u1" RequestStatus.approved "n2").roles.filter
        (fun ra => decide (ra.user_id = "u1"))) =
      [{ id := i, user_id := "u1", role := UserRole.member }] :=
  approve_twice_single_member_role
    ⟨[], [⟨"q1", "u1", "N", "R", RequestStatus.pending, 0⟩], [], []⟩ "q1" "u1" "n1" "n2"
    (by decide)

/-- Witness for `feed_placeholder_amended` at a concrete event whose sender
has no profile row. -/
theorem feed_placeholder_amended_witness :
    (joinEvent ⟨[], [], [], []⟩ ⟨"m1", "u2", MsgType.text, "yo", 3⟩).profiles =
      some (chatPlaceholder "u2") :=
  (feed_placeholder_amended ⟨[], [], [], []⟩ ⟨"m1", "u2", MsgType.text, "yo", 3⟩ rfl).1

end GroupChat
